/-
Verification of the flash-card learning application in `main.py`
(moaburke/WordFlipSwedish).

The program keeps a mutable pool `to_learn` (a list of CSV records, each a
Swedish/English pair), a `current_word`, two counters
(`total_words_guessed`, `total_correct_guesses`), and a progress CSV file
`words_to_learn.csv`.  Its operations are:

  * module-level load: `pandas.read_csv(WORDS_TO_LEARN)`; on
    `FileNotFoundError` or `EmptyDataError` fall back to the canonical list
    read from `swe_words.csv`; otherwise use the file's rows;
  * `next_card()`: pick `random.choice(to_learn)`; on `IndexError`
    (empty list) call `all_completed()`; else set `current_word`, show the
    Swedish text and increment `total_words_guessed`;
  * `flip_card()`: show `current_word["English"]`;
  * `known_word()`: increment `total_correct_guesses`; try
    `to_learn.remove(current_word)`; on `ValueError` call `all_completed()`;
    else write `to_learn` to the progress file and call `next_card()`;
  * `all_completed()`: show the completion message and the restart button;
  * `start_over()`: reload the canonical list into `to_learn`, hide the
    restart button, zero both counters, call `next_card()`;
  * the wrong-answer button is wired directly to `next_card`.

The embedding below represents the mutable globals as a record `AppState`,
`random.choice` as an explicit natural-number choice parameter reduced
modulo the pool length (so every index is reachable), and the progress file
as an inductive `ProgressFile` capturing exactly the distinctions pandas
makes: absent, raising `EmptyDataError` (no parseable columns), or a
parseable CSV with a given list of data rows.
-/
import Mathlib

set_option autoImplicit false

/-- One record of the two-column CSV: a Swedish/English pair.
Equality is value equality of both fields, matching Python `dict` equality
on the records produced by `DataFrame.to_dict(orient='records')`. -/
structure WordEntry where
  swedish : String
  english : String
deriving DecidableEq

/-- The observable states of the progress file `words_to_learn.csv` as pandas
distinguishes them in the module-level `try`/`except`:
  * `absent`     — the file does not exist (`FileNotFoundError`);
  * `emptyData`  — the file exists but `read_csv` raises `EmptyDataError`
                   (zero bytes or no parseable columns; this is exactly what
                   `DataFrame([]).to_csv` writes for an empty pool);
  * `rows l`     — the file parses, with data rows `l` (possibly zero rows
                   under a header line). -/
inductive ProgressFile where
  | absent
  | emptyData
  | rows (l : List WordEntry)
deriving DecidableEq

/-- Module-level load (`main.py` lines 61-73): read the progress file; on
`FileNotFoundError` or `EmptyDataError` fall back to the canonical list from
`swe_words.csv`; otherwise take the file's rows as they are. -/
def loadToLearn (canonical : List WordEntry) : ProgressFile → List WordEntry
  | ProgressFile.absent => canonical
  | ProgressFile.emptyData => canonical
  | ProgressFile.rows l => l

/-- What `pandas.DataFrame(to_learn).to_csv(WORDS_TO_LEARN, index=False)`
leaves on disk (`known_word`, lines 137-138): for a non-empty list, a
parseable CSV with exactly those rows; for the empty list, `DataFrame([])`
has no columns, so the written file has no parseable columns and a later
`read_csv` raises `EmptyDataError`. -/
def persistPool (l : List WordEntry) : ProgressFile :=
  if l = [] then ProgressFile.emptyData else ProgressFile.rows l

/-- The mutable program state: the globals of `main.py` plus the progress
file and the two pieces of display state the claims refer to
(`exhaustedShown` — the completion screen of `all_completed` is showing —
and `cardText` — the word text on the canvas). `currentWord = none` models
the initial `current_word = {}`, which compares unequal to every CSV
record. -/
structure AppState where
  toLearn : List WordEntry
  currentWord : Option WordEntry
  totalWordsGuessed : Nat
  totalCorrectGuesses : Nat
  progressFile : ProgressFile
  exhaustedShown : Bool
  cardText : String
deriving DecidableEq

/-- `all_completed()` (lines 143-154): pure display change — show the
congratulations message and the restart button. -/
def allCompleted (s : AppState) : AppState :=
  { s with exhaustedShown := true, cardText := "You have learned all words." }

/-- The index `random.choice` picks, parameterised by an arbitrary natural
`k` reduced modulo the pool length; every index is obtained for some `k`. -/
def chosenIndex (k : Nat) (l : List WordEntry) (h : l ≠ []) : Fin l.length :=
  ⟨k % l.length, Nat.mod_lt k (List.length_pos.mpr h)⟩

/-- `next_card()` (lines 75-107): `random.choice(to_learn)` raises
`IndexError` on the empty list, handled by `all_completed()` (counters and
`current_word` untouched); otherwise the chosen record becomes
`current_word`, its Swedish text is displayed, and `total_words_guessed`
is incremented. -/
def nextCard (k : Nat) (s : AppState) : AppState :=
  if h : s.toLearn = [] then allCompleted s
  else
    let w := s.toLearn.get (chosenIndex k s.toLearn h)
    { s with currentWord := some w, cardText := w.swedish, exhaustedShown := false,
             totalWordsGuessed := s.totalWordsGuessed + 1 }

/-- `flip_card()` (lines 109-120): display `current_word["English"]`. With
no current word the lookup raises `KeyError` before any display update, so
the state is unchanged. -/
def flipCard (s : AppState) : AppState :=
  match s.currentWord with
  | none => s
  | some w => { s with cardText := w.english }

/-- `known_word()` (lines 122-141): increment `total_correct_guesses`
first; then `to_learn.remove(current_word)` removes the first list entry
equal by value to `current_word`, raising `ValueError` when none matches
(handled by `all_completed()`, with no write and no advance); on success
the shrunken list is written to the progress file and `next_card()` runs. -/
def knownWord (k : Nat) (s : AppState) : AppState :=
  match s.currentWord with
  | none => allCompleted { s with totalCorrectGuesses := s.totalCorrectGuesses + 1 }
  | some w =>
    if w ∈ s.toLearn then
      nextCard k { s with totalCorrectGuesses := s.totalCorrectGuesses + 1,
                          toLearn := s.toLearn.erase w,
                          progressFile := persistPool (s.toLearn.erase w) }
    else allCompleted { s with totalCorrectGuesses := s.totalCorrectGuesses + 1 }

/-- The wrong-answer button (line 201) is wired directly to `next_card`. -/
def wrongButton (k : Nat) (s : AppState) : AppState :=
  nextCard k s

/-- `start_over()` (lines 156-174): reload the canonical list into
`to_learn`, hide the restart button, zero both counters, then `next_card()`.
It never touches the progress file and never clears `current_word`. -/
def startOver (canonical : List WordEntry) (k : Nat) (s : AppState) : AppState :=
  nextCard k { s with toLearn := canonical, exhaustedShown := false,
                      totalWordsGuessed := 0, totalCorrectGuesses := 0 }

/-- The state right after the module-level load (lines 51-73), before the
startup `next_card()` on line 214: counters zero, no current word, pool as
loaded, canvas text still empty. -/
def initState (canonical : List WordEntry) (pf : ProgressFile) : AppState :=
  { toLearn := loadToLearn canonical pf, currentWord := none,
    totalWordsGuessed := 0, totalCorrectGuesses := 0,
    progressFile := pf, exhaustedShown := false, cardText := "" }

/-- The state in which the Tk event loop starts: `main.py` line 214 runs
`next_card()` once before `mainloop()`. -/
def startupState (canonical : List WordEntry) (pf : ProgressFile) (k : Nat) : AppState :=
  nextCard k (initState canonical pf)

/-- The user-driven operations of the event loop. `select` is the
wrong-answer button / a bare `next_card`; `reveal` is the card flip;
`markKnown` is the right-answer button; `restart` is the restart button.
The `Nat` argument is the randomness used if a selection happens. -/
inductive Op where
  | select (k : Nat)
  | reveal
  | markKnown (k : Nat)
  | restart (k : Nat)
deriving DecidableEq

/-- One event-loop step. -/
def step (canonical : List WordEntry) (s : AppState) : Op → AppState
  | Op.select k => nextCard k s
  | Op.reveal => flipCard s
  | Op.markKnown k => knownWord k s
  | Op.restart k => startOver canonical k s

/-- Run a sequence of operations. -/
def run (canonical : List WordEntry) (s : AppState) (ops : List Op) : AppState :=
  ops.foldl (step canonical) s

/-- `current_word` is set and present (by value) in the pool. -/
def currentInPool (s : AppState) : Bool :=
  match s.currentWord with
  | none => false
  | some w => decide (w ∈ s.toLearn)

/-- The guard for a single operation: a `markKnown` must fire in a state
whose `current_word` is present in the pool; every other operation is
unconstrained. -/
def opGuard (s : AppState) : Op → Bool
  | Op.markKnown _ => currentInPool s
  | _ => true

/-- A trace is guarded when every `markKnown` in it fires in a state whose
`current_word` is present in the pool. -/
def guardedRun (canonical : List WordEntry) : AppState → List Op → Bool
  | _, [] => true
  | s, op :: ops => opGuard s op && guardedRun canonical (step canonical s op) ops

/-- Sample entries for concrete witnesses and counterexamples. -/
def hejEntry : WordEntry := { swedish := "hej", english := "hello" }

def tackEntry : WordEntry := { swedish := "tack", english := "thanks" }

/-! ### Component lemmas for the operations -/

theorem allCompleted_toLearn (s : AppState) : (allCompleted s).toLearn = s.toLearn := rfl

theorem allCompleted_currentWord (s : AppState) : (allCompleted s).currentWord = s.currentWord := rfl

theorem allCompleted_guessed (s : AppState) : (allCompleted s).totalWordsGuessed = s.totalWordsGuessed := rfl

theorem allCompleted_correct (s : AppState) : (allCompleted s).totalCorrectGuesses = s.totalCorrectGuesses := rfl

theorem allCompleted_progressFile (s : AppState) : (allCompleted s).progressFile = s.progressFile := rfl

theorem allCompleted_exhausted (s : AppState) : (allCompleted s).exhaustedShown = true := rfl

theorem nextCard_of_empty (k : Nat) (s : AppState) (h : s.toLearn = []) :
    nextCard k s = allCompleted s := by
  unfold nextCard
  rw [dif_pos h]

theorem nextCard_of_ne (k : Nat) (s : AppState) (h : s.toLearn ≠ []) :
    nextCard k s =
      { s with currentWord := some (s.toLearn.get (chosenIndex k s.toLearn h)),
               cardText := (s.toLearn.get (chosenIndex k s.toLearn h)).swedish,
               exhaustedShown := false,
               totalWordsGuessed := s.totalWordsGuessed + 1 } := by
  unfold nextCard
  rw [dif_neg h]

theorem nextCard_toLearn (k : Nat) (s : AppState) : (nextCard k s).toLearn = s.toLearn := by
  by_cases h : s.toLearn = []
  · rw [nextCard_of_empty k s h, allCompleted_toLearn]
  · rw [nextCard_of_ne k s h]

theorem nextCard_correct (k : Nat) (s : AppState) :
    (nextCard k s).totalCorrectGuesses = s.totalCorrectGuesses := by
  by_cases h : s.toLearn = []
  · rw [nextCard_of_empty k s h, allCompleted_correct]
  · rw [nextCard_of_ne k s h]

theorem nextCard_progressFile (k : Nat) (s : AppState) :
    (nextCard k s).progressFile = s.progressFile := by
  by_cases h : s.toLearn = []
  · rw [nextCard_of_empty k s h, allCompleted_progressFile]
  · rw [nextCard_of_ne k s h]

theorem nextCard_guessed_of_ne (k : Nat) (s : AppState) (h : s.toLearn ≠ []) :
    (nextCard k s).totalWordsGuessed = s.totalWordsGuessed + 1 := by
  rw [nextCard_of_ne k s h]

theorem nextCard_current_of_ne (k : Nat) (s : AppState) (h : s.toLearn ≠ []) :
    (nextCard k s).currentWord = some (s.toLearn.get (chosenIndex k s.toLearn h)) := by
  rw [nextCard_of_ne k s h]

theorem nextCard_exhausted_of_ne (k : Nat) (s : AppState) (h : s.toLearn ≠ []) :
    (nextCard k s).exhaustedShown = false := by
  rw [nextCard_of_ne k s h]

theorem nextCard_current_mem (k : Nat) (s : AppState) (h : s.toLearn ≠ []) :
    ∃ w, (nextCard k s).currentWord = some w ∧ w ∈ s.toLearn := by
  refine ⟨s.toLearn.get (chosenIndex k s.toLearn h), nextCard_current_of_ne k s h, ?_⟩
  exact s.toLearn.get_mem _ _

theorem flipCard_toLearn (s : AppState) : (flipCard s).toLearn = s.toLearn := by
  unfold flipCard
  cases s.currentWord <;> rfl

theorem flipCard_currentWord (s : AppState) : (flipCard s).currentWord = s.currentWord := by
  unfold flipCard
  cases h : s.currentWord <;> simp [h]

theorem flipCard_guessed (s : AppState) : (flipCard s).totalWordsGuessed = s.totalWordsGuessed := by
  unfold flipCard
  cases s.currentWord <;> rfl

theorem flipCard_correct (s : AppState) : (flipCard s).totalCorrectGuesses = s.totalCorrectGuesses := by
  unfold flipCard
  cases s.currentWord <;> rfl

theorem flipCard_progressFile (s : AppState) : (flipCard s).progressFile = s.progressFile := by
  unfold flipCard
  cases s.currentWord <;> rfl

theorem flipCard_exhausted (s : AppState) : (flipCard s).exhaustedShown = s.exhaustedShown := by
  unfold flipCard
  cases s.currentWord <;> rfl

theorem knownWord_of_none (k : Nat) (s : AppState) (hc : s.currentWord = none) :
    knownWord k s = allCompleted { s with totalCorrectGuesses := s.totalCorrectGuesses + 1 } := by
  unfold knownWord
  rw [hc]

theorem knownWord_of_mem (k : Nat) (s : AppState) (w : WordEntry)
    (hc : s.currentWord = some w) (hm : w ∈ s.toLearn) :
    knownWord k s =
      nextCard k { s with totalCorrectGuesses := s.totalCorrectGuesses + 1,
                          toLearn := s.toLearn.erase w,
                          progressFile := persistPool (s.toLearn.erase w) } := by
  unfold knownWord
  rw [hc]
  exact if_pos hm

theorem knownWord_of_not_mem (k : Nat) (s : AppState) (w : WordEntry)
    (hc : s.currentWord = some w) (hm : w ∉ s.toLearn) :
    knownWord k s = allCompleted { s with totalCorrectGuesses := s.totalCorrectGuesses + 1 } := by
  unfold knownWord
  rw [hc]
  exact if_neg hm

theorem knownWord_correct (k : Nat) (s : AppState) :
    (knownWord k s).totalCorrectGuesses = s.totalCorrectGuesses + 1 := by
  cases hc : s.currentWord with
  | none => rw [knownWord_of_none k s hc, allCompleted_correct]
  | some w =>
    by_cases hm : w ∈ s.toLearn
    · rw [knownWord_of_mem k s w hc hm, nextCard_correct]
    · rw [knownWord_of_not_mem k s w hc hm, allCompleted_correct]

theorem startOver_toLearn (canonical : List WordEntry) (k : Nat) (s : AppState) :
    (startOver canonical k s).toLearn = canonical := by
  unfold startOver
  rw [nextCard_toLearn]

theorem startOver_correct (canonical : List WordEntry) (k : Nat) (s : AppState) :
    (startOver canonical k s).totalCorrectGuesses = 0 := by
  unfold startOver
  rw [nextCard_correct]

theorem startOver_progressFile (canonical : List WordEntry) (k : Nat) (s : AppState) :
    (startOver canonical k s).progressFile = s.progressFile := by
  unfold startOver
  rw [nextCard_progressFile]

/-! ### The counter invariant (claim C1) -/

/-- The inductive invariant behind `total_correct <= total_guessed`: the
inequality itself, strengthened by strictness whenever the current word is
still present in the pool (a `known_word` that succeeds consumes one unit of
that slack). -/
def counterInv (s : AppState) : Prop :=
  s.totalCorrectGuesses ≤ s.totalWordsGuessed ∧
  (∀ w, s.currentWord = some w → w ∈ s.toLearn →
    s.totalCorrectGuesses < s.totalWordsGuessed)

theorem counterInv_nextCard (k : Nat) (s : AppState)
    (h : s.totalCorrectGuesses ≤ s.totalWordsGuessed) : counterInv (nextCard k s) := by
  by_cases he : s.toLearn = []
  · rw [nextCard_of_empty k s he]
    refine ⟨h, ?_⟩
    intro w _ hm
    rw [allCompleted_toLearn, he] at hm
    cases hm
  · rw [nextCard_of_ne k s he]
    exact ⟨Nat.le_succ_of_le h, fun w _ _ => Nat.lt_succ_of_le h⟩

theorem counterInv_step (canonical : List WordEntry) (s : AppState) (op : Op)
    (h : counterInv s)
    (hg : opGuard s op = true) :
    counterInv (step canonical s op) := by
  cases op with
  | select k => exact counterInv_nextCard k s h.1
  | reveal =>
    refine ⟨?_, ?_⟩
    · rw [step, flipCard_correct, flipCard_guessed]
      exact h.1
    · intro w hw hm
      rw [step, flipCard_currentWord] at hw
      rw [step, flipCard_toLearn] at hm
      rw [step, flipCard_correct, flipCard_guessed]
      exact h.2 w hw hm
  | markKnown k =>
    have hg' : currentInPool s = true := hg
    unfold currentInPool at hg'
    cases hc : s.currentWord with
    | none => rw [hc] at hg'; cases hg'
    | some w =>
      rw [hc] at hg'
      have hm : w ∈ s.toLearn := of_decide_eq_true hg'
      have hlt : s.totalCorrectGuesses < s.totalWordsGuessed := h.2 w hc hm
      rw [step, knownWord_of_mem k s w hc hm]
      exact counterInv_nextCard k _ hlt
  | restart k =>
    rw [step]
    unfold startOver
    exact counterInv_nextCard k _ (Nat.le_refl 0)

theorem counterInv_run (canonical : List WordEntry) (ops : List Op) (s : AppState)
    (h : counterInv s) (hg : guardedRun canonical s ops = true) :
    counterInv (run canonical s ops) := by
  induction ops generalizing s with
  | nil => exact h
  | cons op ops ih =>
    rw [guardedRun, Bool.and_eq_true] at hg
    exact ih (step canonical s op) (counterInv_step canonical s op h hg.1) hg.2

theorem counterInv_initState (canonical : List WordEntry) (pf : ProgressFile) :
    counterInv (initState canonical pf) := by
  refine ⟨Nat.le_refl 0, ?_⟩
  intro w hw _
  cases hw

/-- C1 (amended): along every operation sequence from the freshly loaded
initial state in which each `mark_known` fires while `current_word` is
present in the pool, `total_correct <= total_guessed` holds; since the
guard is prefix-closed and the sequence is universally quantified, the
inequality holds at every intermediate time point as well. -/
theorem c1_counter_invariant_guarded (canonical : List WordEntry) (pf : ProgressFile)
    (ops : List Op) (hg : guardedRun canonical (initState canonical pf) ops = true) :
    (run canonical (initState canonical pf) ops).totalCorrectGuesses ≤
      (run canonical (initState canonical pf) ops).totalWordsGuessed :=
  (counterInv_run canonical ops (initState canonical pf)
    (counterInv_initState canonical pf) hg).1

theorem c1_counter_invariant_guarded_witness :
    (run [hejEntry] (initState [hejEntry] ProgressFile.absent)
        [Op.select 0, Op.markKnown 0]).totalCorrectGuesses ≤
      (run [hejEntry] (initState [hejEntry] ProgressFile.absent)
        [Op.select 0, Op.markKnown 0]).totalWordsGuessed :=
  c1_counter_invariant_guarded [hejEntry] ProgressFile.absent
    [Op.select 0, Op.markKnown 0] (by decide)

/-- C1 counterexample: from the initial state with canonical list
`[hej]` and no progress file, the sequence select; mark_known; mark_known
(the second press of the right button arriving after the pool was
exhausted) ends with `total_correct = 2 > 1 = total_guessed`, so the
invariant does not hold for every operation sequence. -/
theorem c1_cex :
    ¬ ((run [hejEntry] (initState [hejEntry] ProgressFile.absent)
          [Op.select 0, Op.markKnown 0, Op.markKnown 0]).totalCorrectGuesses ≤
        (run [hejEntry] (initState [hejEntry] ProgressFile.absent)
          [Op.select 0, Op.markKnown 0, Op.markKnown 0]).totalWordsGuessed) := by
  decide

/-! ### mark_known with no / absent current word (claims C2, C10) -/

/-- C2 (amended): when `current_word` is unset, `mark_known` raises no error
(the `ValueError` is caught) and leaves the pool, `total_guessed` and the
persisted progress store unchanged — but it is not a complete no-op: it
still increments `total_correct` by one. -/
theorem c2_unset_mark_known (k : Nat) (s : AppState) (hc : s.currentWord = none) :
    (knownWord k s).toLearn = s.toLearn ∧
    (knownWord k s).totalWordsGuessed = s.totalWordsGuessed ∧
    (knownWord k s).progressFile = s.progressFile ∧
    (knownWord k s).currentWord = s.currentWord ∧
    (knownWord k s).totalCorrectGuesses = s.totalCorrectGuesses + 1 := by
  rw [knownWord_of_none k s hc]
  exact ⟨rfl, rfl, rfl, rfl, rfl⟩

theorem c2_unset_mark_known_witness :
    (knownWord 0 (initState [hejEntry] ProgressFile.absent)).toLearn =
        (initState [hejEntry] ProgressFile.absent).toLearn ∧
    (knownWord 0 (initState [hejEntry] ProgressFile.absent)).totalWordsGuessed =
        (initState [hejEntry] ProgressFile.absent).totalWordsGuessed ∧
    (knownWord 0 (initState [hejEntry] ProgressFile.absent)).progressFile =
        (initState [hejEntry] ProgressFile.absent).progressFile ∧
    (knownWord 0 (initState [hejEntry] ProgressFile.absent)).currentWord =
        (initState [hejEntry] ProgressFile.absent).currentWord ∧
    (knownWord 0 (initState [hejEntry] ProgressFile.absent)).totalCorrectGuesses =
        (initState [hejEntry] ProgressFile.absent).totalCorrectGuesses + 1 :=
  c2_unset_mark_known 0 (initState [hejEntry] ProgressFile.absent) rfl

/-- C2 counterexample: in the freshly loaded state (no selection yet, so
`current_word` is unset), `mark_known` does change `total_correct` — from 0
to 1 — so it is not the claimed silent no-op leaving all counters
unchanged. -/
theorem c2_cex :
    ¬ ((knownWord 0 (initState [hejEntry] ProgressFile.absent)).totalCorrectGuesses =
        (initState [hejEntry] ProgressFile.absent).totalCorrectGuesses) := by
  decide

/-- C10 (confirmed): every `mark_known` invocation increments
`total_correct` by exactly one — the increment happens before the removal
is attempted — and when `current_word` is absent from the pool (unset, or
left over after exhaustion) the pool and the persisted progress store are
left unchanged. -/
theorem c10_correct_incremented_first (k : Nat) (s : AppState) :
    (knownWord k s).totalCorrectGuesses = s.totalCorrectGuesses + 1 ∧
    (currentInPool s = false →
      (knownWord k s).toLearn = s.toLearn ∧
      (knownWord k s).progressFile = s.progressFile) := by
  refine ⟨knownWord_correct k s, ?_⟩
  intro habs
  cases hc : s.currentWord with
  | none =>
    rw [knownWord_of_none k s hc]
    exact ⟨rfl, rfl⟩
  | some w =>
    unfold currentInPool at habs
    rw [hc] at habs
    have hm : w ∉ s.toLearn := of_decide_eq_false habs
    rw [knownWord_of_not_mem k s w hc hm]
    exact ⟨rfl, rfl⟩

theorem c10_correct_incremented_first_witness :
    (knownWord 0 (initState [hejEntry] ProgressFile.absent)).totalCorrectGuesses =
        (initState [hejEntry] ProgressFile.absent).totalCorrectGuesses + 1 ∧
    (knownWord 0 (initState [hejEntry] ProgressFile.absent)).toLearn =
        (initState [hejEntry] ProgressFile.absent).toLearn ∧
    (knownWord 0 (initState [hejEntry] ProgressFile.absent)).progressFile =
        (initState [hejEntry] ProgressFile.absent).progressFile := by
  have h := c10_correct_incremented_first 0 (initState [hejEntry] ProgressFile.absent)
  exact ⟨h.1, h.2 (by decide)⟩

/-! ### restart (claim C3) -/

/-- A sample mid-session state used by concrete counterexamples and
witnesses. -/
def midState : AppState :=
  { toLearn := [hejEntry], currentWord := some hejEntry,
    totalWordsGuessed := 3, totalCorrectGuesses := 2,
    progressFile := ProgressFile.rows [hejEntry],
    exhaustedShown := false, cardText := "hej" }

/-- C3 (amended): after `restart` the pool equals the canonical word list
(the very same list, hence same size and contents) and `total_correct = 0`,
and the reseeded pool is not persisted; but because `restart` ends by
calling `select_next`, `total_guessed` is 1 — not 0 — whenever the
canonical list is non-empty (0 only when it is empty), and `current_word`
is never cleared: it is overwritten by the fresh selection when one
happens and retains its prior value when the canonical list is empty. -/
theorem c3_restart_effects (canonical : List WordEntry) (k : Nat) (s : AppState) :
    (startOver canonical k s).toLearn = canonical ∧
    (startOver canonical k s).totalCorrectGuesses = 0 ∧
    (startOver canonical k s).progressFile = s.progressFile ∧
    (canonical = [] →
      (startOver canonical k s).totalWordsGuessed = 0 ∧
      (startOver canonical k s).currentWord = s.currentWord) ∧
    (∀ h : canonical ≠ [],
      (startOver canonical k s).totalWordsGuessed = 1 ∧
      (startOver canonical k s).currentWord =
        some (canonical.get (chosenIndex k canonical h))) := by
  refine ⟨startOver_toLearn canonical k s, startOver_correct canonical k s,
          startOver_progressFile canonical k s, ?_, ?_⟩
  · intro he
    unfold startOver
    rw [nextCard_of_empty k _ he]
    exact ⟨rfl, rfl⟩
  · intro h
    unfold startOver
    rw [nextCard_of_ne k _ h]
    exact ⟨rfl, rfl⟩

theorem c3_restart_effects_witness :
    (startOver [hejEntry] 0 midState).toLearn = [hejEntry] ∧
    (startOver [hejEntry] 0 midState).totalCorrectGuesses = 0 ∧
    (startOver [hejEntry] 0 midState).progressFile = midState.progressFile ∧
    (startOver [hejEntry] 0 midState).totalWordsGuessed = 1 ∧
    (startOver [hejEntry] 0 midState).currentWord = some hejEntry := by
  have h := c3_restart_effects [hejEntry] 0 midState
  have h5 := h.2.2.2.2 (by decide)
  exact ⟨h.1, h.2.1, h.2.2.1, h5.1, h5.2⟩

/-- C3 counterexample: with the non-empty canonical list `[hej]`,
`restart` from a mid-session state ends with `total_guessed = 1`, not 0
(the final `next_card` has already counted the fresh selection); and with
an empty canonical list `current_word` is not cleared — it keeps its old
value. -/
theorem c3_cex :
    (startOver [hejEntry] 0 midState).totalWordsGuessed ≠ 0 ∧
    (startOver [] 0 midState).currentWord ≠ none := by
  decide

/-! ### startup load (claim C4) and persistence round-trip (claim C5) -/

/-- C4 (amended): an absent progress file and a progress file with no
parseable columns (the `EmptyDataError` case — in particular the file the
application itself writes for an empty pool) both load as the canonical
list; but a present, parseable progress file is taken at face value even
with zero data rows, so a header-only file loads as the empty pool, not as
the canonical list; a non-empty file loads as exactly its rows. -/
theorem c4_load_outcomes (canonical : List WordEntry) (l : List WordEntry) :
    loadToLearn canonical ProgressFile.absent = canonical ∧
    loadToLearn canonical ProgressFile.emptyData = canonical ∧
    loadToLearn canonical (ProgressFile.rows l) = l ∧
    persistPool [] = ProgressFile.emptyData :=
  ⟨rfl, rfl, rfl, rfl⟩

/-- C4 counterexample: a present progress file that parses but has zero
data rows (header only) does not load like an absent file — it yields the
empty pool while the absent file yields the canonical list `[hej]`. -/
theorem c4_cex :
    loadToLearn [hejEntry] (ProgressFile.rows []) ≠
      loadToLearn [hejEntry] ProgressFile.absent := by
  decide

/-- C5 (amended): persisting a non-empty pool and doing a fresh load
returns exactly the same contents (the same list, hence the same value
set); and what `mark_known` persists is exactly the post-removal pool.
The empty pool is the exception the claim overlooks: it is written as a
file with no parseable columns, which a fresh load treats as absent,
yielding the canonical list instead of the empty pool. -/
theorem c5_persist_roundtrip (canonical : List WordEntry) (l : List WordEntry) :
    (l ≠ [] → loadToLearn canonical (persistPool l) = l) ∧
    loadToLearn canonical (persistPool []) = canonical ∧
    (∀ (k : Nat) (s : AppState) (w : WordEntry), s.currentWord = some w → w ∈ s.toLearn →
      (knownWord k s).progressFile = persistPool (s.toLearn.erase w)) := by
  refine ⟨?_, rfl, ?_⟩
  · intro h
    unfold persistPool
    rw [if_neg h]
    rfl
  · intro k s w hc hm
    rw [knownWord_of_mem k s w hc hm, nextCard_progressFile]

theorem c5_persist_roundtrip_witness :
    loadToLearn [hejEntry] (persistPool [tackEntry]) = [tackEntry] ∧
    (knownWord 0 midState).progressFile = persistPool [] := by
  have h := c5_persist_roundtrip [hejEntry] [tackEntry]
  have h2 := (c5_persist_roundtrip [hejEntry] [hejEntry]).2.2 0 midState hejEntry rfl (by decide)
  refine ⟨h.1 (by decide), ?_⟩
  rw [h2]
  rfl

/-- C5 counterexample: persisting the empty pool and loading afresh with
canonical list `[hej]` yields `[hej]`, not the empty pool — the round-trip
fails exactly for the empty pool the claim explicitly includes. -/
theorem c5_cex :
    ¬ (loadToLearn [hejEntry] (persistPool ([] : List WordEntry)) = ([] : List WordEntry)) := by
  decide

/-! ### mark_known removes exactly one matching entry (claim C6) -/

/-- C6 (confirmed): when `current_word` is present in the (hence non-empty)
pool, `mark_known` leaves the pool equal to the old pool with the first
entry equal by value to `current_word` removed: the size drops by exactly
one, the multiplicity of `current_word` drops by exactly one, and the
multiplicity of every other value is untouched — with duplicates, exactly
one matching instance is removed, not all. -/
theorem c6_mark_known_removes_one (k : Nat) (s : AppState) (w : WordEntry)
    (hc : s.currentWord = some w) (hm : w ∈ s.toLearn) :
    (knownWord k s).toLearn = s.toLearn.erase w ∧
    (knownWord k s).toLearn.length + 1 = s.toLearn.length ∧
    (knownWord k s).toLearn.count w + 1 = s.toLearn.count w ∧
    (∀ v, v ≠ w → (knownWord k s).toLearn.count v = s.toLearn.count v) := by
  have hp : (knownWord k s).toLearn = s.toLearn.erase w := by
    rw [knownWord_of_mem k s w hc hm, nextCard_toLearn]
  have hlen : 0 < s.toLearn.length := List.length_pos.mpr (List.ne_nil_of_mem hm)
  have hcnt : 0 < s.toLearn.count w := List.count_pos_iff.mpr hm
  refine ⟨hp, ?_, ?_, ?_⟩
  · rw [hp, List.length_erase_of_mem hm]
    omega
  · rw [hp, List.count_erase_self]
    omega
  · intro v hv
    rw [hp, List.count_erase_of_ne hv]

/-- State with a duplicated entry, for the C6 witness. -/
def dupState : AppState :=
  { toLearn := [hejEntry, hejEntry], currentWord := some hejEntry,
    totalWordsGuessed := 2, totalCorrectGuesses := 0,
    progressFile := ProgressFile.absent, exhaustedShown := false, cardText := "hej" }

theorem c6_mark_known_removes_one_witness :
    (knownWord 0 dupState).toLearn = dupState.toLearn.erase hejEntry ∧
    (knownWord 0 dupState).toLearn.length + 1 = dupState.toLearn.length ∧
    (knownWord 0 dupState).toLearn.count hejEntry + 1 = dupState.toLearn.count hejEntry ∧
    (∀ v, v ≠ hejEntry → (knownWord 0 dupState).toLearn.count v = dupState.toLearn.count v) :=
  c6_mark_known_removes_one 0 dupState hejEntry rfl (by decide)

/-! ### select_next (claim C7) -/

/-- C7 (confirmed): on an empty pool `select_next` ends in the exhausted
display without raising (the `IndexError` is caught), changing neither the
pool, the current word, the counters nor the store; on a non-empty pool it
picks the entry at index `k % length` — so as `k` ranges over the choices
of `random.choice`, every index is picked — sets `current_word` to that
member of the pool, displays its Swedish source text, and increments
`total_guessed` by exactly one. -/
theorem c7_select_next (k : Nat) (s : AppState) :
    (s.toLearn = [] →
      (nextCard k s).exhaustedShown = true ∧
      (nextCard k s).toLearn = s.toLearn ∧
      (nextCard k s).currentWord = s.currentWord ∧
      (nextCard k s).totalWordsGuessed = s.totalWordsGuessed ∧
      (nextCard k s).totalCorrectGuesses = s.totalCorrectGuesses ∧
      (nextCard k s).progressFile = s.progressFile) ∧
    (∀ h : s.toLearn ≠ [],
      (nextCard k s).currentWord = some (s.toLearn.get (chosenIndex k s.toLearn h)) ∧
      s.toLearn.get (chosenIndex k s.toLearn h) ∈ s.toLearn ∧
      (nextCard k s).cardText = (s.toLearn.get (chosenIndex k s.toLearn h)).swedish ∧
      (nextCard k s).totalWordsGuessed = s.totalWordsGuessed + 1) ∧
    (∀ (i : Nat) (hi : i < s.toLearn.length),
      (nextCard i s).currentWord = some (s.toLearn.get ⟨i, hi⟩)) := by
  refine ⟨?_, ?_, ?_⟩
  · intro he
    rw [nextCard_of_empty k s he]
    exact ⟨rfl, rfl, rfl, rfl, rfl, rfl⟩
  · intro h
    rw [nextCard_of_ne k s h]
    exact ⟨rfl, s.toLearn.get_mem _ _, rfl, rfl⟩
  · intro i hi
    have h : s.toLearn ≠ [] := by
      intro he
      rw [he] at hi
      cases hi
    rw [nextCard_current_of_ne i s h]
    have : chosenIndex i s.toLearn h = ⟨i, hi⟩ := by
      unfold chosenIndex
      exact Fin.ext (Nat.mod_eq_of_lt hi)
    rw [this]

/-- Two-entry state with no selection yet, for the C7 witness. -/
def twoState : AppState :=
  { toLearn := [hejEntry, tackEntry], currentWord := none,
    totalWordsGuessed := 0, totalCorrectGuesses := 0,
    progressFile := ProgressFile.absent, exhaustedShown := false, cardText := "" }

theorem c7_select_next_witness :
    (nextCard 1 twoState).currentWord = some tackEntry ∧
    (nextCard 1 twoState).cardText = "tack" ∧
    (nextCard 1 twoState).totalWordsGuessed = 1 := by
  have h := (c7_select_next 1 twoState).2.1 (by decide)
  refine ⟨?_, ?_, h.2.2.2⟩
  · rw [h.1]
    rfl
  · rw [h.2.2.1]
    rfl

/-! ### mark_unknown frame (claim C9) -/

/-- C9 (confirmed): the wrong/skip button is wired directly to
`select_next`, so `mark_unknown` is literally that call: it never changes
the pool contents (hence not its size), `total_correct`, or the persisted
progress store — the only changes are those `select_next` itself makes
(incrementing `total_guessed` and replacing `current_word` when the pool
is non-empty). -/
theorem c9_mark_unknown_frame (k : Nat) (s : AppState) :
    wrongButton k s = nextCard k s ∧
    (wrongButton k s).toLearn = s.toLearn ∧
    (wrongButton k s).totalCorrectGuesses = s.totalCorrectGuesses ∧
    (wrongButton k s).progressFile = s.progressFile :=
  ⟨rfl, nextCard_toLearn k s, nextCard_correct k s, nextCard_progressFile k s⟩

/-! ### The exhausted state (claim C8) -/

/-- The inductive invariant of states reachable once the event loop is
running (line 214 guarantees one `next_card` before any button event): the
completion screen is showing exactly when the pool is empty, and a
non-empty pool always has a current word drawn from it. -/
def exhaustInv (s : AppState) : Prop :=
  (s.exhaustedShown = true ↔ s.toLearn = []) ∧
  (s.toLearn ≠ [] → ∃ w, s.currentWord = some w ∧ w ∈ s.toLearn)

theorem exhaustInv_nextCard (k : Nat) (s : AppState) : exhaustInv (nextCard k s) := by
  by_cases he : s.toLearn = []
  · rw [nextCard_of_empty k s he]
    constructor
    · rw [allCompleted_toLearn, allCompleted_exhausted]
      exact ⟨fun _ => he, fun _ => rfl⟩
    · intro hne
      rw [allCompleted_toLearn] at hne
      exact absurd he hne
  · rw [nextCard_of_ne k s he]
    constructor
    · constructor
      · intro hf
        cases hf
      · intro hl
        exact absurd hl he
    · intro _
      exact ⟨s.toLearn.get (chosenIndex k s.toLearn he), rfl, s.toLearn.get_mem _ _⟩

theorem knownWord_exhausted_of_empty (k : Nat) (s : AppState) (he : s.toLearn = []) :
    (knownWord k s).exhaustedShown = true := by
  cases hc : s.currentWord with
  | none => rw [knownWord_of_none k s hc, allCompleted_exhausted]
  | some w =>
    have hm : w ∉ s.toLearn := by
      rw [he]
      exact List.not_mem_nil w
    rw [knownWord_of_not_mem k s w hc hm, allCompleted_exhausted]

theorem exhaustInv_step (canonical : List WordEntry) (s : AppState) (op : Op)
    (h : exhaustInv s) : exhaustInv (step canonical s op) := by
  cases op with
  | select k => exact exhaustInv_nextCard k s
  | reveal =>
    constructor
    · rw [step, flipCard_exhausted, flipCard_toLearn]
      exact h.1
    · intro hne
      rw [step, flipCard_toLearn] at hne
      obtain ⟨w, hw, hm⟩ := h.2 hne
      refine ⟨w, ?_, ?_⟩
      · rw [step, flipCard_currentWord]
        exact hw
      · rw [step, flipCard_toLearn]
        exact hm
  | markKnown k =>
    cases hc : s.currentWord with
    | none =>
      have he : s.toLearn = [] := by
        by_contra hne
        obtain ⟨w, hw, _⟩ := h.2 hne
        rw [hc] at hw
        cases hw
      rw [step, knownWord_of_none k s hc]
      constructor
      · rw [allCompleted_toLearn, allCompleted_exhausted]
        exact ⟨fun _ => he, fun _ => rfl⟩
      · intro hne
        rw [allCompleted_toLearn] at hne
        exact absurd he hne
    | some w =>
      by_cases hm : w ∈ s.toLearn
      · rw [step, knownWord_of_mem k s w hc hm]
        exact exhaustInv_nextCard k _
      · have he : s.toLearn = [] := by
          by_contra hne
          obtain ⟨w', hw', hm'⟩ := h.2 hne
          rw [hc] at hw'
          cases hw'
          exact absurd hm' hm
        rw [step, knownWord_of_not_mem k s w hc hm]
        constructor
        · rw [allCompleted_toLearn, allCompleted_exhausted]
          exact ⟨fun _ => he, fun _ => rfl⟩
        · intro hne
          rw [allCompleted_toLearn] at hne
          exact absurd he hne
  | restart k =>
    rw [step]
    unfold startOver
    exact exhaustInv_nextCard k _

theorem exhaustInv_run (canonical : List WordEntry) (ops : List Op) (s : AppState)
    (h : exhaustInv s) : exhaustInv (run canonical s ops) := by
  induction ops generalizing s with
  | nil => exact h
  | cons op ops ih => exact ih (step canonical s op) (exhaustInv_step canonical s op h)

/-- A state of the running event loop: the startup `next_card` of line 214
followed by any sequence of button events. -/
def reachedState (canonical : List WordEntry) (pf : ProgressFile) (k : Nat)
    (ops : List Op) : AppState :=
  run canonical (startupState canonical pf k) ops

theorem exhaustInv_reachedState (canonical : List WordEntry) (pf : ProgressFile)
    (k : Nat) (ops : List Op) : exhaustInv (reachedState canonical pf k ops) :=
  exhaustInv_run canonical ops (startupState canonical pf k)
    (exhaustInv_nextCard k (initState canonical pf))

/-- C8 (confirmed): in every state the running program can reach, the
completion (EXHAUSTED) display is showing exactly when the pool is empty;
from an exhausted state, `select_next`, `mark_known` and `reveal` all leave
it exhausted (it is terminal until `restart`); and from a non-exhausted
state the only transitions into EXHAUSTED are by operations that perform a
selection (never the pure `reveal`) and find the pool empty — i.e. via
`select_next` on the empty pool. -/
theorem c8_exhausted_transitions (canonical : List WordEntry) (pf : ProgressFile)
    (k : Nat) (ops : List Op) :
    ((reachedState canonical pf k ops).exhaustedShown = true ↔
      (reachedState canonical pf k ops).toLearn = []) ∧
    ((reachedState canonical pf k ops).exhaustedShown = true →
      ∀ k' : Nat,
        (nextCard k' (reachedState canonical pf k ops)).exhaustedShown = true ∧
        (knownWord k' (reachedState canonical pf k ops)).exhaustedShown = true ∧
        (flipCard (reachedState canonical pf k ops)).exhaustedShown = true) ∧
    ((reachedState canonical pf k ops).exhaustedShown = false →
      ∀ op : Op,
        (step canonical (reachedState canonical pf k ops) op).exhaustedShown = true →
        (step canonical (reachedState canonical pf k ops) op).toLearn = [] ∧
        op ≠ Op.reveal) := by
  have hinv := exhaustInv_reachedState canonical pf k ops
  refine ⟨hinv.1, ?_, ?_⟩
  · intro hex k'
    have he := hinv.1.mp hex
    refine ⟨?_, knownWord_exhausted_of_empty k' _ he, ?_⟩
    · rw [nextCard_of_empty k' _ he]
      exact allCompleted_exhausted _
    · rw [flipCard_exhausted]
      exact hex
  · intro hnex op hop
    have hinv' := exhaustInv_step canonical _ op hinv
    refine ⟨hinv'.1.mp hop, ?_⟩
    intro heq
    subst heq
    have hop' : (flipCard (reachedState canonical pf k ops)).exhaustedShown = true := hop
    rw [flipCard_exhausted, hnex] at hop'
    cases hop'

theorem c8_exhausted_transitions_witness :
    (nextCard 0 (reachedState [hejEntry] ProgressFile.absent 0 [Op.markKnown 0])).exhaustedShown
        = true ∧
    (knownWord 0 (reachedState [hejEntry] ProgressFile.absent 0 [Op.markKnown 0])).exhaustedShown
        = true := by
  have h := (c8_exhausted_transitions [hejEntry] ProgressFile.absent 0
    [Op.markKnown 0]).2.1 (by decide) 0
  exact ⟨h.1, h.2.1⟩
